import Mathlib

/-!
# Verification of the SES SMTP credential rotation lambda

A shallow embedding of `rotation/lambda_function.py` (thoughtbot's
`terraform-aws-ses-smtp-credentials`): the credential-derivation routine
(`calculate_password`, an HMAC-SHA256 chain followed by base64), the
retrying live-verification routine (`check_access_key`), and the four-phase
rotation state machine (`lambda_handler` dispatching to `create_secret`,
`set_secret`, `test_secret`, `finish_secret`).

External collaborators (AWS Secrets Manager, IAM, STS) are modelled as
explicit state threaded through the handlers: a `World` carries the secret
store, the IAM user's access keys, and an oracle for STS
`get_caller_identity` responses indexed by call number.  Python exceptions
become `Except` results; mutations performed before an exception persist in
the returned state, as they do across AWS API calls.
-/

namespace SesRotation

/-! ## SHA-256 (FIPS 180-4), over byte lists

`hashlib.sha256` / `hmac.new(..., hashlib.sha256)` from the source, spelled
out.  Bytes are `Nat` values; 32-bit words are `Nat` reduced mod `2 ^ 32`
at every arithmetic step. -/

/-- 32-bit modular addition. -/
def addM (x y : Nat) : Nat := (x + y) % 4294967296

/-- Rotate a 32-bit word right by `n` bits. -/
def rotr32 (n x : Nat) : Nat := (x / 2 ^ n + x % 2 ^ n * 2 ^ (32 - n)) % 4294967296

/-- SHA-256 choice function. -/
def ch (x y z : Nat) : Nat := (x &&& y) ^^^ ((x ^^^ 4294967295) &&& z)

/-- SHA-256 majority function. -/
def maj (x y z : Nat) : Nat := (x &&& y) ^^^ (x &&& z) ^^^ (y &&& z)

/-- SHA-256 big sigma 0. -/
def bigS0 (x : Nat) : Nat := rotr32 2 x ^^^ rotr32 13 x ^^^ rotr32 22 x

/-- SHA-256 big sigma 1. -/
def bigS1 (x : Nat) : Nat := rotr32 6 x ^^^ rotr32 11 x ^^^ rotr32 25 x

/-- SHA-256 small sigma 0. -/
def smallS0 (x : Nat) : Nat := rotr32 7 x ^^^ rotr32 18 x ^^^ x / 8

/-- SHA-256 small sigma 1. -/
def smallS1 (x : Nat) : Nat := rotr32 17 x ^^^ rotr32 19 x ^^^ x / 1024

/-- The 64 SHA-256 round constants. -/
def K : List Nat :=
  [1116352408, 1899447441, 3049323471, 3921009573,
   961987163, 1508970993, 2453635748, 2870763221,
   3624381080, 310598401, 607225278, 1426881987,
   1925078388, 2162078206, 2614888103, 3248222580,
   3835390401, 4022224774, 264347078, 604807628,
   770255983, 1249150122, 1555081692, 1996064986,
   2554220882, 2821834349, 2952996808, 3210313671,
   3336571891, 3584528711, 113926993, 338241895,
   666307205, 773529912, 1294757372, 1396182291,
   1695183700, 1986661051, 2177026350, 2456956037,
   2730485921, 2820302411, 3259730800, 3345764771,
   3516065817, 3600352804, 4094571909, 275423344,
   430227734, 506948616, 659060556, 883997877,
   958139571, 1322822218, 1537002063, 1747873779,
   1955562222, 2024104815, 2227730452, 2361852424,
   2428436474, 2756734187, 3204031479, 3329325298]

/-- SHA-256 working state: eight 32-bit words. -/
structure Hash8 where
  a : Nat
  b : Nat
  c : Nat
  d : Nat
  e : Nat
  f : Nat
  g : Nat
  h : Nat

/-- SHA-256 initial hash value. -/
def H0 : Hash8 :=
  ⟨1779033703, 3144134277, 1013904242, 2773480762,
   1359893119, 2600822924, 528734635, 1541459225⟩

/-- Big-endian 32-bit words from a byte list (four bytes per word). -/
def toWords : List Nat → List Nat
  | a :: b :: c :: d :: rest => (a * 16777216 + b * 65536 + c * 256 + d) :: toWords rest
  | _ => []

/-- One message-schedule extension step: append `w[t]` computed from
`w[t-2], w[t-7], w[t-15], w[t-16]`. -/
def scheduleStep (ws : List Nat) : List Nat :=
  let n := ws.length
  ws ++ [addM (addM (smallS1 (ws.getD (n - 2) 0)) (ws.getD (n - 7) 0))
             (addM (smallS0 (ws.getD (n - 15) 0)) (ws.getD (n - 16) 0))]

/-- Iterate the message-schedule extension `k` times. -/
def schedule : List Nat → Nat → List Nat
  | ws, 0 => ws
  | ws, k + 1 => schedule (scheduleStep ws) k

/-- One SHA-256 compression round with round input `wk = (w[t], K[t])`. -/
def compressRound (st : Hash8) (wk : Nat × Nat) : Hash8 :=
  let t1 := addM st.h (addM (bigS1 st.e) (addM (ch st.e st.f st.g) (addM wk.2 wk.1)))
  let t2 := addM (bigS0 st.a) (maj st.a st.b st.c)
  ⟨addM t1 t2, st.a, st.b, st.c, addM st.d t1, st.e, st.f, st.g⟩

/-- Process one 64-byte block: 64 rounds, then add into the chaining state. -/
def processBlock (hh : Hash8) (block : List Nat) : Hash8 :=
  let ws := schedule (toWords block) 48
  let st := (ws.zip K).foldl compressRound hh
  ⟨addM hh.a st.a, addM hh.b st.b, addM hh.c st.c, addM hh.d st.d,
   addM hh.e st.e, addM hh.f st.f, addM hh.g st.g, addM hh.h st.h⟩

/-- Eight big-endian bytes of a 64-bit length field. -/
def beBytes8 (n : Nat) : List Nat :=
  [n / 2 ^ 56 % 256, n / 2 ^ 48 % 256, n / 2 ^ 40 % 256, n / 2 ^ 32 % 256,
   n / 2 ^ 24 % 256, n / 2 ^ 16 % 256, n / 2 ^ 8 % 256, n % 256]

/-- SHA-256 padding: `0x80`, zeros to 56 mod 64, then the bit length. -/
def sha256pad (msg : List Nat) : List Nat :=
  msg ++ 128 :: (List.replicate ((64 - (msg.length + 9) % 64) % 64) 0 ++ beBytes8 (msg.length * 8))

/-- Split a byte list into 64-byte blocks. -/
def chunks64 (l : List Nat) : List (List Nat) :=
  match l with
  | [] => []
  | x :: xs => ((x :: xs).take 64) :: chunks64 ((x :: xs).drop 64)
termination_by l.length
decreasing_by simp [List.length_drop]; omega

/-- Four big-endian bytes of a 32-bit word. -/
def wordBytes (w : Nat) : List Nat :=
  [w / 16777216 % 256, w / 65536 % 256, w / 256 % 256, w % 256]

/-- SHA-256 of a byte list: a 32-byte digest. -/
def sha256 (msg : List Nat) : List Nat :=
  let hh := (chunks64 (sha256pad msg)).foldl processBlock H0
  wordBytes hh.a ++ wordBytes hh.b ++ wordBytes hh.c ++ wordBytes hh.d ++
    wordBytes hh.e ++ wordBytes hh.f ++ wordBytes hh.g ++ wordBytes hh.h

/-- HMAC-SHA256 (RFC 2104) with the 64-byte block size. -/
def hmacSha256 (key msg : List Nat) : List Nat :=
  let k0 := if 64 < key.length then sha256 key else key
  let kp := k0 ++ List.replicate (64 - k0.length) 0
  sha256 ((kp.map (fun b => b ^^^ 92)) ++ sha256 ((kp.map (fun b => b ^^^ 54)) ++ msg))

/-- Bytes of an ASCII string (UTF-8 agrees on all constants used here). -/
def strBytes (s : String) : List Nat := s.data.map Char.toNat

/-- `sign(key, msg)` from the source: HMAC-SHA256 of the UTF-8 message under
the byte-list key. -/
def sign (key : List Nat) (msg : String) : List Nat := hmacSha256 key (strBytes msg)

/-! ## Base64 (`base64.b64encode` from the source, plus a decoder) -/

/-- The standard base64 alphabet. -/
def b64chars : List Char :=
  "ABCDEFGHIJKLMNOPQRSTUVWXYZabcdefghijklmnopqrstuvwxyz0123456789+/".data

/-- Alphabet character of a sextet. -/
def b64char (n : Nat) : Char := b64chars.getD n 'A'

/-- Sextet of an alphabet character, if any. -/
def b64index (c : Char) : Option Nat := b64chars.findIdx? (fun x => x == c)

/-- Base64-encode a byte list, three bytes to four characters, with `=`
padding on a final partial group. -/
def b64encGo : List Nat → List Char
  | [] => []
  | [a] =>
    let n := a * 65536
    [b64char (n / 262144), b64char (n / 4096 % 64), '=', '=']
  | [a, b] =>
    let n := a * 65536 + b * 256
    [b64char (n / 262144), b64char (n / 4096 % 64), b64char (n / 64 % 64), '=']
  | a :: b :: c :: rest =>
    let n := a * 65536 + b * 256 + c
    b64char (n / 262144) :: b64char (n / 4096 % 64) :: b64char (n / 64 % 64) ::
      b64char (n % 64) :: b64encGo rest

/-- `base64.b64encode` producing an ASCII string. -/
def b64encode (l : List Nat) : String := String.mk (b64encGo l)

/-- Base64-decode four characters to three bytes, honoring `=` padding at the
end of the input only. -/
def b64decGo : List Char → Option (List Nat)
  | [] => some []
  | c1 :: c2 :: c3 :: c4 :: rest =>
    (b64index c1).bind fun s1 =>
      (b64index c2).bind fun s2 =>
        if c3 = '=' then
          if c4 = '=' ∧ rest = [] then some [s1 * 4 + s2 / 16] else none
        else
          (b64index c3).bind fun s3 =>
            if c4 = '=' then
              if rest = [] then some [s1 * 4 + s2 / 16, s2 % 16 * 16 + s3 / 4] else none
            else
              (b64index c4).bind fun s4 =>
                (b64decGo rest).map fun t =>
                  (s1 * 4 + s2 / 16) :: (s2 % 16 * 16 + s3 / 4) :: (s3 % 4 * 64 + s4) :: t
  | _ => none

/-- Base64-decode a string to bytes, if well formed. -/
def b64decode (s : String) : Option (List Nat) := b64decGo s.data

/-! ## Credential derivation (`calculate_password`)

The fixed protocol constants and the HMAC chain converting an IAM secret
access key into an SES SMTP password. -/

/-- Fixed calendar stamp seeding the signature chain. -/
def DATE : String := "11111111"

/-- Fixed service label. -/
def SERVICE : String := "ses"

/-- Fixed message-type label. -/
def MESSAGE : String := "SendRawEmail"

/-- Fixed scope terminator. -/
def TERMINAL : String := "aws4_request"

/-- Fixed version byte prepended to the digest. -/
def VERSION : Nat := 0x04

/-- `calculate_password(secret_access_key, region)` from the source: the
five-step `sign` chain, one version byte, base64. -/
def calculate_password (secret_access_key : String) (region : String) : String :=
  let signature1 := sign (strBytes ("AWS4" ++ secret_access_key)) DATE
  let signature2 := sign signature1 region
  let signature3 := sign signature2 SERVICE
  let signature4 := sign signature3 TERMINAL
  let signature5 := sign signature4 MESSAGE
  b64encode (VERSION :: signature5)

/-! ## The rotation state machine

`lambda_handler` and its phase handlers, with AWS Secrets Manager, IAM and
STS modelled as explicit state.  Python exceptions are `Except.error`
results carrying the exception's identity; state mutated before a raise is
kept, as it is across real AWS calls. -/

/-- The failure taxonomy: each constructor is one `raise` site (or upstream
AWS error) reachable in the source. -/
inductive RotErr where
  /-- `ValueError` — secret not enabled for rotation. -/
  | notConfigured
  /-- `ValueError` — token is no version of the secret. -/
  | unknownVersion
  /-- `ValueError` — token's version carries neither stage. -/
  | invalidStage
  /-- `ValueError` — invalid step parameter. -/
  | unknownPhase
  /-- `ResourceNotFoundException` from `get_secret_value`. -/
  | resourceNotFound
  /-- `KeyError` from the required-field check in `get_secret_dict`. -/
  | schemaViolation (field : String)
  /-- Python `KeyError` from a dictionary access outside the schema check. -/
  | keyError (field : String)
  /-- `ValueError` from unpacking the caller identity ARN. -/
  | parseError
  /-- `ValueError` — authenticated as the wrong identity. -/
  | verificationFailed (username : String)
  /-- `ValueError` — unable to authenticate within the retry budget. -/
  | verificationExhausted
deriving DecidableEq

/-- A secret payload: the JSON dictionary, as an association list so that
missing fields are expressible. -/
def SecretDict := List (String × String)

/-- First-match association lookup (Python `d[k]` / `k in d`). -/
def dget : List (String × String) → String → Option String
  | [], _ => none
  | (k, v) :: rest, key => if k = key then some v else dget rest key

/-- Python `d[k] = v`: replace the binding or append it. -/
def setField : SecretDict → String → String → SecretDict
  | [], k, v => [(k, v)]
  | (k', v') :: rest, k, v =>
    if k' = k then (k, v) :: rest else (k', v') :: setField rest k v

/-- One version of the secret: its staging labels and, when
`put_secret_value` has run for it, its stored payload. -/
structure SMVersion where
  stages : List String
  value : Option SecretDict

/-- First-match association lookup over versions. -/
def aget : List (String × SMVersion) → String → Option SMVersion
  | [], _ => none
  | (k, v) :: rest, key => if k = key then some v else aget rest key

/-- The secret-store state for the one rotating secret. -/
structure SMState where
  rotationEnabled : Bool
  versions : List (String × SMVersion)

/-- The staging labels of a version id (empty when unknown). -/
def stagesOf (st : SMState) (v : String) : List String :=
  match aget st.versions v with
  | some ver => ver.stages
  | none => []

/-- `get_secret_value(SecretId, VersionStage=stage)`: the payload of the
first version carrying `stage`; `ResourceNotFoundException` when no version
carries it or no payload was stored. -/
def getValueByStage (st : SMState) (stage : String) : Except RotErr SecretDict :=
  match st.versions.find? (fun p => decide (stage ∈ p.2.stages)) with
  | some p =>
    match p.2.value with
    | some d => .ok d
    | none => .error .resourceNotFound
  | none => .error .resourceNotFound

/-- `get_secret_value(SecretId, VersionId=token, VersionStage=stage)`. -/
def getValueByToken (st : SMState) (token stage : String) : Except RotErr SecretDict :=
  match aget st.versions token with
  | some ver =>
    if stage ∈ ver.stages then
      match ver.value with
      | some d => .ok d
      | none => .error .resourceNotFound
    else .error .resourceNotFound
  | none => .error .resourceNotFound

/-- Append a staging label unless already present. -/
def addStage (s : List String) (l : String) : List String :=
  if l ∈ s then s else s ++ [l]

/-- The per-version effect of `put_secret_value` at stage `AWSPENDING`:
the token's version receives the payload and the label, every other
version loses the label. -/
def putUpd (token : String) (d : SecretDict) (key : String) (ver : SMVersion) : SMVersion :=
  if key = token then ⟨addStage ver.stages "AWSPENDING", some d⟩
  else ⟨ver.stages.filter (fun s => decide (s ≠ "AWSPENDING")), ver.value⟩

/-- `put_secret_value(..., VersionStages=['AWSPENDING'])`: store the payload
under `token`'s version, attach `AWSPENDING` to it and detach `AWSPENDING`
from every other version. -/
def putSecretValue (st : SMState) (token : String) (d : SecretDict) : SMState :=
  let vs := st.versions.map (fun p => (p.1, putUpd token d p.1 p.2))
  { st with versions :=
      if (aget st.versions token).isSome then vs
      else vs ++ [(token, ⟨["AWSPENDING"], some d⟩)] }

/-- `update_secret_version_stage(..., VersionStage=stage,
MoveToVersionId=moveTo, RemoveFromVersionId=removeFrom)`. -/
def updateVersionStage (st : SMState) (stage moveTo : String) (removeFrom : Option String) :
    SMState :=
  let vs := st.versions.map (fun p =>
    if some p.1 = removeFrom then
      (p.1, SMVersion.mk (p.2.stages.filter (fun s => decide (s ≠ stage))) p.2.value)
    else p)
  { st with versions := vs.map (fun p =>
      if p.1 = moveTo then (p.1, SMVersion.mk (addStage p.2.stages stage) p.2.value) else p) }

/-- `get_secret_dict(service_client, arn, stage, token)`: fetch the payload
(by stage, validating the version id when a token is given) and enforce the
required-field schema, raising `KeyError` at the first missing field in
order. -/
def required_fields : List String := ["SMTP_USERNAME", "SMTP_PASSWORD", "SMTP_REGION"]

/-- The required-field loop of `get_secret_dict`. -/
def checkRequired (d : SecretDict) : Except RotErr SecretDict :=
  match required_fields.find? (fun f => (dget d f).isNone) with
  | some f => .error (.schemaViolation f)
  | none => .ok d

/-- `get_secret_dict` itself. -/
def get_secret_dict (st : SMState) (stage : String) (token : Option String) :
    Except RotErr SecretDict :=
  match token with
  | some t =>
    match getValueByToken st t stage with
    | .ok d => checkRequired d
    | .error e => .error e
  | none =>
    match getValueByStage st stage with
    | .ok d => checkRequired d
    | .error e => .error e

/-- The IAM user's key set, plus the id/secret the next
`create_access_key` call will mint. -/
structure IamState where
  keys : List String
  freshId : String
  freshSecret : String

/-- `iam.delete_access_key(UserName, AccessKeyId)`. -/
def deleteAccessKey (iam : IamState) (id : String) : IamState :=
  { iam with keys := iam.keys.filter (fun k => decide (k ≠ id)) }

/-- `iam.create_access_key(UserName)`: the minted id/secret pair and the
updated key set. -/
def createAccessKey (iam : IamState) : String × String × IamState :=
  (iam.freshId, iam.freshSecret, { iam with keys := iam.keys ++ [iam.freshId] })

/-- The full external state one invocation runs against: the secret store,
the IAM user, an oracle giving each STS `get_caller_identity` call's
response (`none` is a `ClientError`) by credentials and call index, the
number of STS calls made so far, the time slept so far, and the configured
expected identity (`os.environ['USERNAME']`). -/
structure World where
  sm : SMState
  iam : IamState
  sts : String → String → Nat → Option String
  stsIdx : Nat
  slept : Nat
  envUsername : String

/-- `caller['Arn'].split('/', 2)` — split into at most three parts. -/
def splitLim : List Char → Nat → List (List Char)
  | [], _ => [[]]
  | c :: cs, m =>
    if c = '/' ∧ m ≠ 0 then
      [] :: splitLim cs (m - 1)
    else
      match splitLim cs m with
      | [] => [[c]]
      | h :: t => (c :: h) :: t

/-- `_prefix, username = caller['Arn'].split('/', 2)`: exactly two parts or
a `ValueError`. -/
def arnUsername (arn : String) : Option String :=
  match splitLim arn.data 2 with
  | [_, u] => some (String.mk u)
  | _ => none

/-- `check_access_key(access_key_id, secret_access_key, attempts=5)`: call
STS; on success parse the ARN; on `ClientError` sleep five time-units and
retry while the (decremented, possibly negative) counter is still
non-negative, then raise.  Returns the result together with the updated
call index and total sleep time. -/
def check_access_key (sts : String → String → Nat → Option String)
    (akid secret : String) (idx slept : Nat) (attempts : Int) :
    Except RotErr String × Nat × Nat :=
  match sts akid secret idx with
  | some arn =>
    match arnUsername arn with
    | some username => (.ok username, idx + 1, slept)
    | none => (.error .parseError, idx + 1, slept)
  | none =>
    if h : attempts ≥ 0 then
      check_access_key sts akid secret (idx + 1) (slept + 5) (attempts - 1)
    else
      (.error .verificationExhausted, idx + 1, slept)
termination_by (attempts + 1).toNat
decreasing_by omega

/-- The per-key loop of `create_secret`: delete every listed access key
whose id differs from the `AWSCURRENT` payload's key id (read from the
payload on each iteration, so a missing field raises there). -/
def deleteLoop (iam : IamState) (cur : Option String) : List String → Except RotErr IamState
  | [] => .ok iam
  | id :: rest =>
    match cur with
    | none => .error (.keyError "SMTP_USERNAME")
    | some c =>
      if id ≠ c then deleteLoop (deleteAccessKey iam id) cur rest
      else deleteLoop iam cur rest

/-- `create_secret`: require the `AWSCURRENT` payload, then either find an
existing `AWSPENDING` payload for the token (idempotent no-op) or delete
the non-current keys, mint one key, rebuild the payload with the new
id/secret and freshly derived password, and store it at `AWSPENDING`. -/
def create_secret (w : World) (token : String) : Except RotErr Unit × World :=
  match get_secret_dict w.sm "AWSCURRENT" none with
  | .error e => (.error e, w)
  | .ok current =>
    match getValueByToken w.sm token "AWSPENDING" with
    | .ok _ => (.ok (), w)
    | .error _ =>
      match deleteLoop w.iam (dget current "SMTP_USERNAME") w.iam.keys with
      | .error e => (.error e, w)
      | .ok iam1 =>
        let minted := createAccessKey iam1
        let d1 := setField current "SMTP_USERNAME" minted.1
        let d2 := setField d1 "SMTP_SECRET" minted.2.1
        match dget d2 "SMTP_REGION" with
        | none => (.error (.keyError "SMTP_REGION"), { w with iam := minted.2.2 })
        | some region =>
          let d3 := setField d2 "SMTP_PASSWORD" (calculate_password minted.2.1 region)
          (.ok (), { w with iam := minted.2.2, sm := putSecretValue w.sm token d3 })

/-- `set_secret`: nothing to set — keys are issued by the provider. -/
def set_secret (w : World) (_token : String) : Except RotErr Unit × World :=
  (.ok (), w)

/-- `test_secret`: fetch the `AWSPENDING` payload for the token, attempt to
authenticate with its key pair, and require the resolved identity to equal
the configured one. -/
def test_secret (w : World) (token : String) : Except RotErr Unit × World :=
  match get_secret_dict w.sm "AWSPENDING" (some token) with
  | .error e => (.error e, w)
  | .ok pending =>
    match dget pending "SMTP_USERNAME" with
    | none => (.error (.keyError "SMTP_USERNAME"), w)
    | some akid =>
      match dget pending "SMTP_SECRET" with
      | none => (.error (.keyError "SMTP_SECRET"), w)
      | some secret =>
        let r := check_access_key w.sts akid secret w.stsIdx w.slept 5
        let w' := { w with stsIdx := r.2.1, slept := r.2.2 }
        match r.1 with
        | .error e => (.error e, w')
        | .ok username =>
          if username = w.envUsername then (.ok (), w')
          else (.error (.verificationFailed username), w')

/-- `finish_secret`: re-read the version map; if the first version carrying
`AWSCURRENT` is the token's, succeed as a no-op; otherwise move the
`AWSCURRENT` label to the token's version (from that holder, or from none
on a first rotation). -/
def finish_secret (w : World) (token : String) : Except RotErr Unit × World :=
  match w.sm.versions.find? (fun p => decide ("AWSCURRENT" ∈ p.2.stages)) with
  | some p =>
    if p.1 = token then (.ok (), w)
    else (.ok (), { w with sm := updateVersionStage w.sm "AWSCURRENT" token (some p.1) })
  | none => (.ok (), { w with sm := updateVersionStage w.sm "AWSCURRENT" token none })

/-- `lambda_handler`: the precondition gate over the secret's metadata,
the idempotent `AWSCURRENT` short-circuit, then phase dispatch. -/
def lambda_handler (w : World) (token step : String) : Except RotErr Unit × World :=
  if w.sm.rotationEnabled = false then (.error .notConfigured, w)
  else
    match aget w.sm.versions token with
    | none => (.error .unknownVersion, w)
    | some ver =>
      if "AWSCURRENT" ∈ ver.stages then (.ok (), w)
      else if "AWSPENDING" ∉ ver.stages then (.error .invalidStage, w)
      else if step = "createSecret" then create_secret w token
      else if step = "setSecret" then set_secret w token
      else if step = "testSecret" then test_secret w token
      else if step = "finishSecret" then finish_secret w token
      else (.error .unknownPhase, w)

/-! ## Concrete scenarios (used by witnesses and counterexamples) -/

/-- A well-formed stored payload. -/
def samplePayload : SecretDict :=
  [("SMTP_USERNAME", "AKOLD"), ("SMTP_SECRET", "oldsecret"),
   ("SMTP_PASSWORD", "pw"), ("SMTP_REGION", "us-east-1")]

/-- An IAM user holding only the current key, with one mintable key. -/
def baseIam : IamState := ⟨["AKOLD"], "AKNEW", "newsecret"⟩

/-- An STS oracle that always raises `ClientError`. -/
def noSts : String → String → Nat → Option String := fun _ _ _ => none

/-- A world around a given secret-store state. -/
def mkWorld (sm : SMState) : World := ⟨sm, baseIam, noSts, 0, 0, "ses-user"⟩

/-- Rotation not enabled. -/
def wDisabled : World := mkWorld ⟨false, []⟩

/-- Rotation enabled but the token is no version. -/
def wNoVersion : World := mkWorld ⟨true, []⟩

/-- The token's version carries neither `AWSCURRENT` nor `AWSPENDING`. -/
def wWrongStage : World := mkWorld ⟨true, [("tok", ⟨["AWSPREVIOUS"], none⟩)]⟩

/-- A mid-rotation world: a current version and the token at `AWSPENDING`
with no payload stored yet. -/
def wPending : World :=
  mkWorld ⟨true, [("vA", ⟨["AWSCURRENT"], some samplePayload⟩), ("tok", ⟨["AWSPENDING"], none⟩)]⟩

/-- The token's version already carries `AWSCURRENT`. -/
def wCurrent : World := mkWorld ⟨true, [("tok", ⟨["AWSCURRENT"], some samplePayload⟩)]⟩

/-- An STS oracle that raises `ClientError` on the first five calls and
authenticates from the sixth call on. -/
def sts5 : String → String → Nat → Option String :=
  fun _ _ i => if i = 5 then some "arn:aws:iam::123456789012:user/alice" else none

/-- An STS oracle that always authenticates as the wrong identity. -/
def stsWrong : String → String → Nat → Option String :=
  fun _ _ _ => some "arn:aws:iam::123456789012:user/mallory"

/-- A rotation whose pending credential authenticates as the wrong user. -/
def wMismatch : World :=
  { mkWorld ⟨true, [("tok", ⟨["AWSPENDING"], some samplePayload⟩)]⟩ with sts := stsWrong }

/-- A mid-rotation world whose IAM user holds the current key and one stale
key. -/
def wTwoKeys : World :=
  { mkWorld ⟨true, [("vA", ⟨["AWSCURRENT"], some samplePayload⟩), ("tok", ⟨["AWSPENDING"], none⟩)]⟩
    with iam := ⟨["AKOLD", "AKSTALE"], "AKNEW", "newsecret"⟩ }

/-- The payload `create_secret` would have stored for the pending version. -/
def pendingPayload : SecretDict :=
  [("SMTP_USERNAME", "AKNEW"), ("SMTP_SECRET", "newsecret"),
   ("SMTP_PASSWORD", "pw2"), ("SMTP_REGION", "us-east-1")]

/-- A rotation where the pending payload has already been stored. -/
def wPendingDone : World :=
  mkWorld ⟨true, [("vA", ⟨["AWSCURRENT"], some samplePayload⟩),
                  ("tok", ⟨["AWSPENDING"], some pendingPayload⟩)]⟩

/-- A first-ever rotation: a pending payload exists but no version carries
`AWSCURRENT`. -/
def wNoCurrent : World := mkWorld ⟨true, [("tok", ⟨["AWSPENDING"], some pendingPayload⟩)]⟩

/-- A stored payload missing `SMTP_SECRET` but carrying every field the
source's required-field list checks. -/
def noSecretPayload : SecretDict :=
  [("SMTP_USERNAME", "AKOLD"), ("SMTP_PASSWORD", "pw"), ("SMTP_REGION", "us-east-1")]

/-- A world whose pending payload is `noSecretPayload`. -/
def wNoSecretField : World :=
  mkWorld ⟨true, [("tok", ⟨["AWSPENDING"], some noSecretPayload⟩)]⟩

/-- A stored payload missing the signing region. -/
def noRegionPayload : SecretDict :=
  [("SMTP_USERNAME", "AKOLD"), ("SMTP_SECRET", "oldsecret"), ("SMTP_PASSWORD", "pw")]

/-- A world whose current payload is missing the signing region. -/
def wNoRegion : World :=
  mkWorld ⟨true, [("vA", ⟨["AWSCURRENT"], some noRegionPayload⟩),
                  ("tok", ⟨["AWSPENDING"], none⟩)]⟩

/-! ## Facts about the derivation primitives -/

/-- A SHA-256 digest has exactly 32 bytes. -/
theorem sha256_length (msg : List Nat) : (sha256 msg).length = 32 := by
  simp [sha256, wordBytes]

/-- Every byte produced by `wordBytes` is below 256. -/
theorem wordBytes_lt {b w : Nat} (hb : b ∈ wordBytes w) : b < 256 := by
  simp [wordBytes] at hb
  rcases hb with h | h | h | h <;> omega

/-- Every byte of a SHA-256 digest is below 256. -/
theorem sha256_lt {msg : List Nat} {b : Nat} (hb : b ∈ sha256 msg) : b < 256 := by
  simp only [sha256, List.mem_append] at hb
  rcases hb with ((((((h | h) | h) | h) | h) | h) | h) | h <;> exact wordBytes_lt h

/-- An HMAC-SHA256 `sign` digest has exactly 32 bytes. -/
theorem sign_length (key : List Nat) (msg : String) : (sign key msg).length = 32 :=
  sha256_length _

/-- Every byte of a `sign` digest is below 256. -/
theorem sign_lt {key : List Nat} {msg : String} {b : Nat} (hb : b ∈ sign key msg) : b < 256 :=
  sha256_lt hb

/-- Decoding inverts encoding on each alphabet character. -/
theorem b64index_b64char : ∀ i, i < 64 → b64index (b64char i) = some i := by decide

/-- No alphabet character is the padding character. -/
theorem b64char_ne_pad : ∀ i, i < 64 → ¬ b64char i = '=' := by decide

/-- Base64 decoding inverts encoding on byte lists whose length is a
multiple of three. -/
theorem b64decGo_encGo :
    ∀ (n : Nat) (l : List Nat), l.length ≤ n → (∀ b ∈ l, b < 256) → l.length % 3 = 0 →
      b64decGo (b64encGo l) = some l := by
  intro n
  induction n with
  | zero =>
    intro l hl _ _
    have : l = [] := List.length_eq_zero.mp (Nat.le_zero.mp hl)
    subst this; rfl
  | succ n ih =>
    intro l hl hb h3
    rcases l with _ | ⟨a, _ | ⟨b, _ | ⟨c, rest⟩⟩⟩
    · rfl
    · simp at h3
    · simp at h3
    · have ha : a < 256 := hb a (by simp)
      have hbb : b < 256 := hb b (by simp)
      have hc : c < 256 := hb c (by simp)
      set m := a * 65536 + b * 256 + c with hm
      have h1 : m / 262144 < 64 := by omega
      have h2 : m / 4096 % 64 < 64 := by omega
      have h3' : m / 64 % 64 < 64 := by omega
      have h4 : m % 64 < 64 := by omega
      have hrest := ih rest (by simp at hl; omega)
        (fun x hx => hb x (by simp [hx])) (by simp at h3 ⊢; omega)
      show b64decGo (b64char (m / 262144) :: b64char (m / 4096 % 64) :: b64char (m / 64 % 64) ::
          b64char (m % 64) :: b64encGo rest) = some (a :: b :: c :: rest)
      simp only [b64decGo, b64index_b64char _ h1, b64index_b64char _ h2,
        b64index_b64char _ h3', b64index_b64char _ h4, Option.some_bind,
        if_neg (b64char_ne_pad _ h3'), if_neg (b64char_ne_pad _ h4), hrest, Option.map_some']
      refine congrArg some ?_
      refine List.cons_eq_cons.mpr ⟨by omega, List.cons_eq_cons.mpr ⟨by omega,
        List.cons_eq_cons.mpr ⟨by omega, rfl⟩⟩⟩

/-- Base64 decode-of-encode round trip for digest-shaped byte lists. -/
theorem b64_roundtrip (l : List Nat) (hb : ∀ b ∈ l, b < 256) (h3 : l.length % 3 = 0) :
    b64decode (b64encode l) = some l :=
  b64decGo_encGo l.length l le_rfl hb h3

/-- C3: `calculate_password` computes the fixed keyed-hash chain — seeded
from the constant calendar stamp under the `"AWS4"`-prefixed secret, then
chained through the region, the fixed service label, the fixed scope
terminator and the fixed message-type label — yielding a 32-byte digest; it
prepends the one constant version byte and base64-encodes; it is pure and
deterministic, and its output always decodes to exactly 33 bytes. -/
theorem c3_calculate_password_derivation (s r : String) :
    calculate_password s r
        = b64encode (VERSION ::
            sign (sign (sign (sign (sign (strBytes ("AWS4" ++ s)) DATE) r) SERVICE) TERMINAL)
              MESSAGE)
      ∧ (sign (sign (sign (sign (sign (strBytes ("AWS4" ++ s)) DATE) r) SERVICE) TERMINAL)
            MESSAGE).length = 32
      ∧ (∀ s' r', s = s' → r = r' → calculate_password s r = calculate_password s' r')
      ∧ (b64decode (calculate_password s r)).map List.length = some 33 := by
  set sig := sign (sign (sign (sign (sign (strBytes ("AWS4" ++ s)) DATE) r) SERVICE) TERMINAL)
    MESSAGE with hsig
  refine ⟨rfl, sign_length _ _, fun s' r' hs hr => by rw [hs, hr], ?_⟩
  have hby : ∀ x ∈ VERSION :: sig, x < 256 := by
    intro x hx
    rcases List.mem_cons.mp hx with h | h
    · subst h; norm_num [VERSION]
    · exact sign_lt (hsig ▸ h)
  have hlen : (VERSION :: sig).length % 3 = 0 := by
    simp [hsig, sign_length]
  have hrt := b64_roundtrip (VERSION :: sig) hby hlen
  calc (b64decode (calculate_password s r)).map List.length
      = (b64decode (b64encode (VERSION :: sig))).map List.length := rfl
    _ = (some (VERSION :: sig)).map List.length := by rw [hrt]
    _ = some 33 := by simp [hsig, sign_length]

/-- Witness for C3 at a concrete secret/region pair. -/
theorem c3_calculate_password_derivation_witness :
    calculate_password "wJalrXUtnFEMI" "us-east-1" = calculate_password "wJalrXUtnFEMI" "us-east-1"
      ∧ (b64decode (calculate_password "wJalrXUtnFEMI" "us-east-1")).map List.length = some 33 :=
  ⟨(c3_calculate_password_derivation "wJalrXUtnFEMI" "us-east-1").2.2.1 _ _ rfl rfl,
   (c3_calculate_password_derivation "wJalrXUtnFEMI" "us-east-1").2.2.2⟩

/-- C1: the precondition gate of `advance` runs before any phase handler:
no rotation enablement fails with `NotConfigured`; an unknown token version
fails with `UnknownVersion`; a version carrying neither `AWSCURRENT` nor
`AWSPENDING` fails with `InvalidStage`; and with `AWSPENDING` but an
unknown phase value the invocation fails with `UnknownPhase`. -/
theorem c1_precondition_gate (w : World) (token step : String) :
    (w.sm.rotationEnabled = false → lambda_handler w token step = (.error .notConfigured, w))
    ∧ (w.sm.rotationEnabled = true → aget w.sm.versions token = none →
        lambda_handler w token step = (.error .unknownVersion, w))
    ∧ (∀ ver, w.sm.rotationEnabled = true → aget w.sm.versions token = some ver →
        "AWSCURRENT" ∉ ver.stages → "AWSPENDING" ∉ ver.stages →
        lambda_handler w token step = (.error .invalidStage, w))
    ∧ (∀ ver, w.sm.rotationEnabled = true → aget w.sm.versions token = some ver →
        "AWSCURRENT" ∉ ver.stages → "AWSPENDING" ∈ ver.stages →
        step ∉ ["createSecret", "setSecret", "testSecret", "finishSecret"] →
        lambda_handler w token step = (.error .unknownPhase, w)) := by
  refine ⟨?_, ?_, ?_, ?_⟩
  · intro h; simp [lambda_handler, h]
  · intro h1 h2; simp [lambda_handler, h1, h2]
  · intro ver h1 h2 h3 h4; simp [lambda_handler, h1, h2, h3, h4]
  · intro ver h1 h2 h3 h4 h5
    simp only [List.mem_cons, List.not_mem_nil, not_or, or_false] at h5
    obtain ⟨n1, n2, n3, n4⟩ := h5
    simp [lambda_handler, h1, h2, h3, h4, n1, n2, n3, n4]

/-- Witness for C1: each gate failure on a concrete world. -/
theorem c1_precondition_gate_witness :
    lambda_handler wDisabled "tok" "createSecret" = (.error .notConfigured, wDisabled)
    ∧ lambda_handler wNoVersion "tok" "createSecret" = (.error .unknownVersion, wNoVersion)
    ∧ lambda_handler wWrongStage "tok" "createSecret" = (.error .invalidStage, wWrongStage)
    ∧ lambda_handler wPending "tok" "badStep" = (.error .unknownPhase, wPending) :=
  ⟨(c1_precondition_gate wDisabled "tok" "createSecret").1 rfl,
   (c1_precondition_gate wNoVersion "tok" "createSecret").2.1 rfl rfl,
   (c1_precondition_gate wWrongStage "tok" "createSecret").2.2.1 ⟨["AWSPREVIOUS"], none⟩
     rfl rfl (by decide) (by decide),
   (c1_precondition_gate wPending "tok" "badStep").2.2.2 ⟨["AWSPENDING"], none⟩
     rfl rfl (by decide) (by decide) (by decide)⟩

/-- C2: when the token's version already carries `AWSCURRENT`, `advance` is
a successful no-op for every phase value — the unchanged world in the
result shows no handler work and no store or provider mutation. -/
theorem c2_current_short_circuit (w : World) (ver : SMVersion) (token step : String)
    (h1 : w.sm.rotationEnabled = true) (h2 : aget w.sm.versions token = some ver)
    (h3 : "AWSCURRENT" ∈ ver.stages) :
    lambda_handler w token step = (.ok (), w) := by
  simp [lambda_handler, h1, h2, h3]

/-- Witness for C2: the short circuit on a concrete world, both for a real
phase and for a value that is not a phase at all. -/
theorem c2_current_short_circuit_witness :
    lambda_handler wCurrent "tok" "createSecret" = (.ok (), wCurrent)
    ∧ lambda_handler wCurrent "tok" "notAPhase" = (.ok (), wCurrent) :=
  ⟨c2_current_short_circuit wCurrent ⟨["AWSCURRENT"], some samplePayload⟩ "tok" "createSecret"
     rfl rfl (by decide),
   c2_current_short_circuit wCurrent ⟨["AWSCURRENT"], some samplePayload⟩ "tok" "notAPhase"
     rfl rfl (by decide)⟩

/-- One-step unfolding of `check_access_key` on a failing call. -/
theorem cak_step_none (sts : String → String → Nat → Option String)
    (akid secret : String) (idx slept : Nat) (attempts : Int)
    (h : sts akid secret idx = none) :
    check_access_key sts akid secret idx slept attempts =
      if attempts ≥ 0 then check_access_key sts akid secret (idx + 1) (slept + 5) (attempts - 1)
      else (.error .verificationExhausted, idx + 1, slept) := by
  rw [check_access_key, h]
  simp

/-- One-step unfolding of `check_access_key` on an authenticating call. -/
theorem cak_step_auth (sts : String → String → Nat → Option String)
    (akid secret : String) (idx slept : Nat) (attempts : Int) (arn u : String)
    (hs : sts akid secret idx = some arn) (hp : arnUsername arn = some u) :
    check_access_key sts akid secret idx slept attempts = (.ok u, idx + 1, slept) := by
  rw [check_access_key, hs]
  simp [hp]

/-- When every call in reach fails, `check_access_key` retries until the
counter goes negative: with a non-negative starting counter `a` it makes
`a + 2` calls and sleeps `5 * (a + 1)`, then raises the exhaustion error. -/
theorem cak_exhaust (sts : String → String → Nat → Option String) (akid secret : String) :
    ∀ (a idx slept : Nat),
      (∀ i, idx ≤ i → i ≤ idx + a + 1 → sts akid secret i = none) →
      check_access_key sts akid secret idx slept (a : Int)
        = (.error .verificationExhausted, idx + a + 2, slept + 5 * (a + 1)) := by
  intro a
  induction a with
  | zero =>
    intro idx slept h
    rw [cak_step_none _ _ _ _ _ _ (h idx (le_refl _) (by omega)),
      if_pos (by omega : ((0 : Nat) : Int) ≥ 0),
      cak_step_none _ _ _ _ _ _ (h (idx + 1) (by omega) (by omega)),
      if_neg (by omega : ¬ ((0 : Nat) : Int) - 1 ≥ 0)]
  | succ a ih =>
    intro idx slept h
    rw [cak_step_none _ _ _ _ _ _ (h idx (le_refl _) (by omega)),
      if_pos (by push_cast; omega : ((a + 1 : Nat) : Int) ≥ 0),
      show ((a + 1 : Nat) : Int) - 1 = (a : Int) by push_cast; omega,
      ih (idx + 1) (slept + 5) (fun i h1 h2 => h i (by omega) (by omega))]
    simp only [Prod.mk.injEq, true_and]
    exact ⟨by omega, by omega⟩

/-- When the oracle starts authenticating at the `k`-th call and the retry
counter still allows that call, `check_access_key` succeeds with the parsed
identity after `k + 1` calls and `5 * k` slept time-units. -/
theorem cak_success (sts : String → String → Nat → Option String) (akid secret arn u : String) :
    ∀ (k idx slept : Nat) (a : Int), (k : Int) ≤ a + 1 →
      (∀ i, i < k → sts akid secret (idx + i) = none) →
      sts akid secret (idx + k) = some arn → arnUsername arn = some u →
      check_access_key sts akid secret idx slept a = (.ok u, idx + k + 1, slept + 5 * k) := by
  intro k
  induction k with
  | zero =>
    intro idx slept a _ _ hs hp
    rw [show idx + 0 = idx by omega] at hs
    rw [cak_step_auth _ _ _ _ _ _ _ _ hs hp]
    simp
  | succ k ih =>
    intro idx slept a hk hfail hs hp
    have h0 : sts akid secret idx = none := by
      have := hfail 0 (by omega)
      rwa [show idx + 0 = idx by omega] at this
    rw [cak_step_none _ _ _ _ _ _ h0, if_pos (by push_cast at hk; omega : a ≥ 0),
      ih (idx + 1) (slept + 5) (a - 1) (by push_cast at hk ⊢; omega)
        (fun i hi => by
          have := hfail (i + 1) (by omega)
          rwa [show idx + (i + 1) = idx + 1 + i by omega] at this)
        (by rwa [show idx + 1 + k = idx + (k + 1) by omega]) hp]
    simp only [Prod.mk.injEq, true_and]
    exact ⟨by omega, by omega⟩

/-- C4 (amended): `verify` makes up to seven attempts, not five — the
counter starts at five and the retry guard runs it down to minus one —
sleeping five time-units between attempts and retrying only on
authentication failure; if no call in the budget authenticates it fails
with the exhaustion error after seven calls and thirty time-units of sleep,
and if the provider starts accepting at any call index up to six, `verify`
succeeds with the parsed identity. -/
theorem c4_verification_budget (sts : String → String → Nat → Option String)
    (akid secret : String) :
    ((∀ i, i < 7 → sts akid secret i = none) →
      check_access_key sts akid secret 0 0 5 = (.error .verificationExhausted, 7, 30))
    ∧ (∀ (k : Nat) (arn u : String), k ≤ 6 →
        (∀ i, i < k → sts akid secret i = none) →
        sts akid secret k = some arn → arnUsername arn = some u →
        check_access_key sts akid secret 0 0 5 = (.ok u, k + 1, 5 * k)) := by
  constructor
  · intro h
    have h5 := cak_exhaust sts akid secret 5 0 0 (fun i h1 h2 => h i (by omega))
    simpa using h5
  · intro k arn u hk hfail hs hp
    have h5 := cak_success sts akid secret arn u k 0 0 5 (by push_cast; omega)
      (fun i hi => by simpa using hfail i hi) (by simpa using hs) hp
    simpa using h5

/-- C4 counterexample: against an oracle that rejects the first five calls,
authentication has not succeeded within five attempts, yet the call does
not fail with the exhaustion error — it succeeds on the sixth attempt. -/
theorem c4_counterexample :
    (∀ i, i < 5 → sts5 "AKNEW" "newsecret" i = none)
    ∧ (check_access_key sts5 "AKNEW" "newsecret" 0 0 5).1 = .ok "alice" := by
  refine ⟨by decide, ?_⟩
  have h5 := cak_success sts5 "AKNEW" "newsecret" "arn:aws:iam::123456789012:user/alice" "alice"
    5 0 0 5 (by norm_num) (by decide) rfl rfl
  rw [h5]

/-- Witness for C4 at two concrete oracles: one that never authenticates
and one that starts authenticating at the sixth call. -/
theorem c4_verification_budget_witness :
    check_access_key noSts "AKNEW" "newsecret" 0 0 5 = (.error .verificationExhausted, 7, 30)
    ∧ check_access_key sts5 "AKNEW" "newsecret" 0 0 5 = (.ok "alice", 6, 25) :=
  ⟨(c4_verification_budget noSts "AKNEW" "newsecret").1 (fun _ _ => rfl),
   (c4_verification_budget sts5 "AKNEW" "newsecret").2 5
     "arn:aws:iam::123456789012:user/alice" "alice" (by decide) (by decide) rfl rfl⟩

/-- C5: when the pending credential authenticates as a real identity that
differs from the configured one, `test_secret` fails immediately with
`VerificationFailed` carrying the resolved identity: exactly one
identity-check call is made and no backoff sleep happens — the world is
unchanged except for that single call. -/
theorem c5_mismatch_no_retry (w : World) (token : String) (pending : SecretDict)
    (akid secret arn u : String)
    (h1 : get_secret_dict w.sm "AWSPENDING" (some token) = .ok pending)
    (h2 : dget pending "SMTP_USERNAME" = some akid)
    (h3 : dget pending "SMTP_SECRET" = some secret)
    (h4 : w.sts akid secret w.stsIdx = some arn)
    (h5 : arnUsername arn = some u)
    (h6 : u ≠ w.envUsername) :
    test_secret w token = (.error (.verificationFailed u), { w with stsIdx := w.stsIdx + 1 }) := by
  have hck : check_access_key w.sts akid secret w.stsIdx w.slept 5
      = (.ok u, w.stsIdx + 1, w.slept) := cak_step_auth _ _ _ _ _ _ _ _ h4 h5
  simp [test_secret, h1, h2, h3, hck, h6]

/-- Witness for C5 on a concrete mismatching world. -/
theorem c5_mismatch_no_retry_witness :
    test_secret wMismatch "tok"
      = (.error (.verificationFailed "mallory"), { wMismatch with stsIdx := 1 }) :=
  c5_mismatch_no_retry wMismatch "tok" samplePayload "AKOLD" "oldsecret"
    "arn:aws:iam::123456789012:user/mallory" "mallory" rfl rfl rfl rfl rfl (by decide)

/-- `checkRequired` succeeds exactly on its input, with every listed
required field present. -/
theorem checkRequired_ok {d d' : SecretDict} (h : checkRequired d = .ok d') :
    d' = d ∧ ∀ f ∈ required_fields, (dget d f).isSome := by
  unfold checkRequired at h
  cases hf : required_fields.find? (fun f => (dget d f).isNone) with
  | some f => rw [hf] at h; cases h
  | none =>
    rw [hf] at h
    refine ⟨by injection h with h; exact h.symm, fun f hfm => ?_⟩
    have hnf := List.find?_eq_none.mp hf f hfm
    cases hd : dget d f with
    | none => exact absurd (by simp [hd]) hnf
    | some v => simp

/-- A payload delivered by `get_secret_dict` carries every required field. -/
theorem get_secret_dict_fields {st : SMState} {stage : String} {tok : Option String}
    {d : SecretDict} (h : get_secret_dict st stage tok = .ok d) :
    ∀ f ∈ required_fields, (dget d f).isSome := by
  rcases tok with _ | t
  · simp only [get_secret_dict] at h
    cases hv : getValueByStage st stage with
    | ok d0 =>
      rw [hv] at h
      obtain ⟨rfl, h2⟩ := checkRequired_ok h
      exact h2
    | error e => rw [hv] at h; cases h
  · simp only [get_secret_dict] at h
    cases hv : getValueByToken st t stage with
    | ok d0 =>
      rw [hv] at h
      obtain ⟨rfl, h2⟩ := checkRequired_ok h
      exact h2
    | error e => rw [hv] at h; cases h

/-- `setField` on a different key leaves a lookup unchanged. -/
theorem dget_setField_ne (d : SecretDict) (k k' v : String) (h : k' ≠ k) :
    dget (setField d k' v) k = dget d k := by
  induction d with
  | nil => simp [setField, dget, h]
  | cons p rest ih =>
    rcases p with ⟨pk, pv⟩
    by_cases hpk : pk = k'
    · subst hpk
      simp [setField, dget, h]
    · simp only [setField, if_neg hpk, dget]
      split
      · rfl
      · exact ih

/-- C6: on the minting path, `create_secret` deletes every access key whose
id differs from the `AWSCURRENT` payload's key id and then mints exactly
one key; for a user holding the matching key and one stale key, the stale
key is deleted, the matching key is preserved and the minted key appended,
and the phase succeeds. -/
theorem c6_single_active_key (w : World) (token : String) (cur : SecretDict)
    (kCur kOther : String)
    (h1 : get_secret_dict w.sm "AWSCURRENT" none = .ok cur)
    (h2 : dget cur "SMTP_USERNAME" = some kCur)
    (h4 : getValueByToken w.sm token "AWSPENDING" = .error .resourceNotFound)
    (h5 : w.iam.keys = [kCur, kOther])
    (h6 : kOther ≠ kCur) :
    (create_secret w token).1 = .ok ()
    ∧ (create_secret w token).2.iam.keys = [kCur, w.iam.freshId] := by
  have hreg : (dget cur "SMTP_REGION").isSome :=
    get_secret_dict_fields h1 "SMTP_REGION" (by simp [required_fields])
  obtain ⟨reg, hreg⟩ := Option.isSome_iff_exists.mp hreg
  have hne : kCur ≠ kOther := fun hcontra => h6 hcontra.symm
  have hdel : deleteLoop w.iam (dget cur "SMTP_USERNAME") w.iam.keys
      = .ok { w.iam with keys := [kCur] } := by
    rw [h2, h5]
    simp [deleteLoop, deleteAccessKey, h6, hne, h5]
  have hd2 : dget (setField (setField cur "SMTP_USERNAME" w.iam.freshId)
      "SMTP_SECRET" w.iam.freshSecret) "SMTP_REGION" = some reg := by
    rw [dget_setField_ne _ _ _ _ (by decide), dget_setField_ne _ _ _ _ (by decide), hreg]
  constructor
  · simp [create_secret, h1, h4, hdel, createAccessKey, hd2]
  · simp [create_secret, h1, h4, hdel, createAccessKey, hd2]

/-- Witness for C6 on a concrete two-key world. -/
theorem c6_single_active_key_witness :
    (create_secret wTwoKeys "tok").1 = .ok ()
    ∧ (create_secret wTwoKeys "tok").2.iam.keys = ["AKOLD", "AKNEW"] :=
  c6_single_active_key wTwoKeys "tok" samplePayload "AKOLD" "AKSTALE"
    rfl rfl rfl rfl (by decide)

/-- C7: `create_secret` is idempotent per token — when the store already
holds a payload at `AWSPENDING` for the exact token, it succeeds with the
world entirely unchanged: no key minted or deleted and no payload
overwritten. -/
theorem c7_create_idempotent (w : World) (token : String) (cur d : SecretDict)
    (h1 : get_secret_dict w.sm "AWSCURRENT" none = .ok cur)
    (h2 : getValueByToken w.sm token "AWSPENDING" = .ok d) :
    create_secret w token = (.ok (), w) := by
  simp [create_secret, h1, h2]

/-- Witness for C7: a second `create_secret` call on a world whose pending
payload is already stored. -/
theorem c7_create_idempotent_witness :
    create_secret wPendingDone "tok" = (.ok (), wPendingDone) :=
  c7_create_idempotent wPendingDone "tok" samplePayload pendingPayload rfl rfl

/-- C10: `create_secret` reads the `AWSCURRENT` payload before checking for
an existing `AWSPENDING` payload, so when the current payload is unreadable
the phase fails with that read's error even though a pending payload for
the token already exists — the idempotent short-circuit is unreachable. -/
theorem c10_current_read_first (w : World) (token : String) (e : RotErr) (d : SecretDict)
    (h1 : get_secret_dict w.sm "AWSCURRENT" none = .error e)
    (_h2 : getValueByToken w.sm token "AWSPENDING" = .ok d) :
    create_secret w token = (.error e, w) := by
  simp [create_secret, h1]

/-- Witness for C10: a first-ever rotation with a stored pending payload
but no readable current payload. -/
theorem c10_current_read_first_witness :
    create_secret wNoCurrent "tok" = (.error .resourceNotFound, wNoCurrent) :=
  c10_current_read_first wNoCurrent "tok" .resourceNotFound pendingPayload rfl rfl

/-- Lookup after a key-preserving map. -/
theorem aget_map_upd (g : String → SMVersion → SMVersion) (l : List (String × SMVersion))
    (k : String) :
    aget (l.map (fun p => (p.1, g p.1 p.2))) k = (aget l k).map (g k) := by
  induction l with
  | nil => rfl
  | cons p rest ih =>
    rcases p with ⟨pk, pv⟩
    by_cases h : pk = k
    · subst h; simp [aget]
    · simp [aget, h, ih]

/-- Lookup distributes over append, first list first. -/
theorem aget_append (l1 l2 : List (String × SMVersion)) (k : String) :
    aget (l1 ++ l2) k =
      match aget l1 k with
      | some v => some v
      | none => aget l2 k := by
  induction l1 with
  | nil => rfl
  | cons p rest ih =>
    rcases p with ⟨pk, pv⟩
    by_cases h : pk = k
    · simp [aget, h]
    · simp [aget, h, ih]

/-- `addStage` of a different label preserves membership. -/
theorem mem_addStage_of_ne {s : List String} {l x : String} (h : x ≠ l) :
    x ∈ addStage s l ↔ x ∈ s := by
  unfold addStage
  split
  · exact Iff.rfl
  · simp [h]

/-- The version list `put_secret_value` leaves behind. -/
theorem putSecretValue_versions (st : SMState) (token : String) (d : SecretDict) :
    (putSecretValue st token d).versions =
      if (aget st.versions token).isSome then
        st.versions.map (fun p => (p.1, putUpd token d p.1 p.2))
      else
        st.versions.map (fun p => (p.1, putUpd token d p.1 p.2))
          ++ [(token, ⟨["AWSPENDING"], some d⟩)] := rfl

/-- Storing a pending payload never moves the `AWSCURRENT` label. -/
theorem stagesOf_putSecretValue (st : SMState) (token : String) (d : SecretDict) (v : String) :
    ("AWSCURRENT" ∈ stagesOf (putSecretValue st token d) v)
      ↔ ("AWSCURRENT" ∈ stagesOf st v) := by
  unfold stagesOf
  rw [putSecretValue_versions]
  by_cases hsome : (aget st.versions token).isSome
  · rw [if_pos hsome, aget_map_upd]
    cases h : aget st.versions v with
    | none => simp
    | some ver =>
      simp only [Option.map_some']
      by_cases hv : v = token
      · simp [putUpd, hv, mem_addStage_of_ne (by decide : "AWSCURRENT" ≠ "AWSPENDING")]
      · simp [putUpd, hv, List.mem_filter]
  · rw [if_neg hsome]
    have hnone : aget st.versions token = none := by
      cases h : aget st.versions token with
      | none => rfl
      | some u => rw [h] at hsome; simp at hsome
    rw [aget_append, aget_map_upd]
    by_cases hv : v = token
    · subst hv
      simp [hnone, aget]
    · cases h : aget st.versions v with
      | none => simp [h, aget, Ne.symm hv]
      | some ver => simp [h, putUpd, hv, List.mem_filter]

/-- `set_secret` never touches the secret store. -/
theorem set_secret_sm (w : World) (t : String) : (set_secret w t).2.sm = w.sm := rfl

/-- `test_secret` never touches the secret store. -/
theorem test_secret_sm (w : World) (t : String) : (test_secret w t).2.sm = w.sm := by
  simp only [test_secret]
  repeat' split
  all_goals rfl

/-- `create_secret` never moves the `AWSCURRENT` label. -/
theorem create_secret_current (w : World) (t v : String) :
    ("AWSCURRENT" ∈ stagesOf (create_secret w t).2.sm v)
      ↔ ("AWSCURRENT" ∈ stagesOf w.sm v) := by
  simp only [create_secret]
  repeat' split
  all_goals first
    | exact Iff.rfl
    | exact stagesOf_putSecretValue _ _ _ _

/-- C8: `finish_secret` re-reads the stage map; on a secret whose version
`vA` carries `AWSCURRENT` while the token's version `vB` does not, it
succeeds and moves the `AWSCURRENT` label from `vA` to `vB` in the one
stage-move call; re-running it with the same token is then a no-op; and no
other phase ever mutates the `AWSCURRENT` label. -/
theorem c8_finish_promotion (w : World) (vA vB : String) (verA verB : SMVersion)
    (hv : w.sm.versions = [(vA, verA), (vB, verB)])
    (hAC : "AWSCURRENT" ∈ verA.stages)
    (_hBC : "AWSCURRENT" ∉ verB.stages)
    (hAB : vA ≠ vB) :
    (finish_secret w vB).1 = .ok ()
    ∧ "AWSCURRENT" ∉ stagesOf (finish_secret w vB).2.sm vA
    ∧ "AWSCURRENT" ∈ stagesOf (finish_secret w vB).2.sm vB
    ∧ finish_secret (finish_secret w vB).2 vB = (.ok (), (finish_secret w vB).2)
    ∧ (∀ (w2 : World) (t2 : String), (set_secret w2 t2).2.sm = w2.sm)
    ∧ (∀ (w2 : World) (t2 : String), (test_secret w2 t2).2.sm = w2.sm)
    ∧ (∀ (w2 : World) (t2 v2 : String),
        ("AWSCURRENT" ∈ stagesOf (create_secret w2 t2).2.sm v2)
          ↔ ("AWSCURRENT" ∈ stagesOf w2.sm v2)) := by
  have hw' : finish_secret w vB =
      (.ok (), { w with sm := { w.sm with versions :=
        [(vA, ⟨verA.stages.filter (fun s => decide (s ≠ "AWSCURRENT")), verA.value⟩),
         (vB, ⟨addStage verB.stages "AWSCURRENT", verB.value⟩)] } }) := by
    simp [finish_secret, hv, hAC, hAB, Ne.symm hAB, updateVersionStage]
  have hmemA : "AWSCURRENT" ∉
      verA.stages.filter (fun s => decide (s ≠ "AWSCURRENT")) := by
    simp [List.mem_filter]
  have hmemB : "AWSCURRENT" ∈ addStage verB.stages "AWSCURRENT" := by
    unfold addStage
    split
    · assumption
    · simp
  refine ⟨by rw [hw'], ?_, ?_, ?_, set_secret_sm, test_secret_sm, create_secret_current⟩
  · rw [hw']
    simp [stagesOf, aget]
  · rw [hw']
    simpa [stagesOf, aget, hAB] using hmemB
  · rw [hw']
    simp [finish_secret, List.find?, hmemA, hmemB]

/-- Witness for C8 on a concrete two-version world. -/
theorem c8_finish_promotion_witness :
    (finish_secret wPending "tok").1 = .ok ()
    ∧ "AWSCURRENT" ∉ stagesOf (finish_secret wPending "tok").2.sm "vA"
    ∧ "AWSCURRENT" ∈ stagesOf (finish_secret wPending "tok").2.sm "tok" :=
  ⟨(c8_finish_promotion wPending "vA" "tok" ⟨["AWSCURRENT"], some samplePayload⟩
      ⟨["AWSPENDING"], none⟩ rfl (by decide) (by decide) (by decide)).1,
   (c8_finish_promotion wPending "vA" "tok" ⟨["AWSCURRENT"], some samplePayload⟩
      ⟨["AWSPENDING"], none⟩ rfl (by decide) (by decide) (by decide)).2.1,
   (c8_finish_promotion wPending "vA" "tok" ⟨["AWSCURRENT"], some samplePayload⟩
      ⟨["AWSPENDING"], none⟩ rfl (by decide) (by decide) (by decide)).2.2.1⟩

/-- C9 counterexample: a payload missing the key-secret field
(`SMTP_SECRET`, the spec's `secret_material`) is handed out by
`get_secret_dict` with no `SchemaViolation` at all, and its use in
`test_secret` then fails with a plain `KeyError` — so `secret_material` is
not among the fields the schema check enforces. -/
theorem c9_counterexample :
    dget noSecretPayload "SMTP_SECRET" = none
    ∧ get_secret_dict wNoSecretField.sm "AWSPENDING" (some "tok") = .ok noSecretPayload
    ∧ test_secret wNoSecretField "tok" = (.error (.keyError "SMTP_SECRET"), wNoSecretField) :=
  ⟨rfl, rfl, rfl⟩

/-- C9 (amended): the required-field schema `get_secret_dict` enforces
covers `username` (`SMTP_USERNAME`), `derived_password` (`SMTP_PASSWORD`)
and `region` (`SMTP_REGION`) — but not the key secret (`SMTP_SECRET`),
whose absence only surfaces later at its use site: every payload the
accessor hands out carries the three checked fields; a payload missing
`region` alone fails with `SchemaViolation` naming it; and in
`create_secret` that failure pre-empts any derivation — the phase returns
the schema error with the world untouched. -/
theorem c9_schema_enforcement :
    (∀ (st : SMState) (stage : String) (tok : Option String) (d : SecretDict),
        get_secret_dict st stage tok = .ok d →
          (dget d "SMTP_USERNAME").isSome ∧ (dget d "SMTP_PASSWORD").isSome
            ∧ (dget d "SMTP_REGION").isSome)
    ∧ (∀ d : SecretDict, (dget d "SMTP_USERNAME").isSome → (dget d "SMTP_PASSWORD").isSome →
        dget d "SMTP_REGION" = none →
        checkRequired d = .error (.schemaViolation "SMTP_REGION"))
    ∧ (∀ (w : World) (token f : String),
        get_secret_dict w.sm "AWSCURRENT" none = .error (.schemaViolation f) →
        create_secret w token = (.error (.schemaViolation f), w)) := by
  refine ⟨?_, ?_, ?_⟩
  · intro st stage tok d h
    have h2 := get_secret_dict_fields h
    exact ⟨h2 "SMTP_USERNAME" (by simp [required_fields]),
      h2 "SMTP_PASSWORD" (by simp [required_fields]),
      h2 "SMTP_REGION" (by simp [required_fields])⟩
  · intro d h1 h2 h3
    obtain ⟨u, hu⟩ := Option.isSome_iff_exists.mp h1
    obtain ⟨p, hp⟩ := Option.isSome_iff_exists.mp h2
    unfold checkRequired
    rw [show required_fields.find? (fun f => (dget d f).isNone) = some "SMTP_REGION" by
      simp [required_fields, List.find?, hu, hp, h3]]
  · intro w token f h
    simp [create_secret, h]

/-- Witness for C9: the three amended facts on concrete inputs — a checked
fetch, the region-missing schema failure, and `create_secret` surfacing it
with the world untouched. -/
theorem c9_schema_enforcement_witness :
    ((dget noSecretPayload "SMTP_USERNAME").isSome
      ∧ (dget noSecretPayload "SMTP_PASSWORD").isSome
      ∧ (dget noSecretPayload "SMTP_REGION").isSome)
    ∧ checkRequired noRegionPayload = .error (.schemaViolation "SMTP_REGION")
    ∧ create_secret wNoRegion "tok" = (.error (.schemaViolation "SMTP_REGION"), wNoRegion) :=
  ⟨c9_schema_enforcement.1 wNoSecretField.sm "AWSPENDING" (some "tok") noSecretPayload rfl,
   c9_schema_enforcement.2.1 noRegionPayload (by decide) (by decide) rfl,
   c9_schema_enforcement.2.2 wNoRegion "tok" "SMTP_REGION" rfl⟩

end SesRotation
